import Mathlib

/-!
Shallow embedding of the PPM decoder (src/ppm.rs), the `BitmapData`/`Image`
abstraction (src/image.rs) and the JPEG wrapper (src/jpeg.rs) of the PPM
repository, together with theorems settling the specification claims.

Byte buffers are modelled as `List Nat` (each element a byte value `< 256`);
machine integers are `Nat` with explicit `% 2 ^ w` where the Rust code
truncates (`as u8`).  Rust panics (`expect`, out-of-bounds indexing) are
modelled explicitly: the decoder returns a `DecodeResult` with a `panicked`
constructor, and `get_pixel_value` returns `Option`, `Option.none` standing
for the Rust index-out-of-bounds panic.
-/

namespace PPMSpec

/-- `(*val as char).is_whitespace()` for a byte `val`: a `u8` cast to `char`
is the Latin-1 code point, and `char::is_whitespace` holds on bytes exactly
for U+0009..U+000D, U+0020, U+0085 (NEL) and U+00A0 (NBSP). -/
def isWhitespaceByte (b : Nat) : Bool :=
  b == 9 || b == 10 || b == 11 || b == 12 || b == 13 || b == 32 || b == 133 || b == 160

/-- The mutable flags captured by the `retain` closure in
`PPM::populate_from_buffer` (src/ppm.rs lines 70-77). -/
structure NormState where
  isCommented : Bool
  isMultipleWhitespace : Bool
  isLastWhitespace : Bool
  divCount : Nat
deriving DecidableEq

/-- One step of the `retain` closure (src/ppm.rs lines 79-110): returns
whether the byte is kept, and the updated flag state.  `divCount` models the
`i32 div_count` (it only ever increments, at most once per input byte, so
`Nat` is faithful for any realistic input). -/
def normStep (isP6 : Bool) (s : NormState) (val : Nat) : Bool × NormState :=
  if isP6 && decide (5 ≤ s.divCount) then (true, s)
  else
    let c1 := if val == 35 then true else s.isCommented
    let st :=
      if isWhitespaceByte val then
        { isCommented := c1
          isMultipleWhitespace := if s.isLastWhitespace then true else s.isMultipleWhitespace
          isLastWhitespace := true
          divCount := if !s.isLastWhitespace && !c1 then s.divCount + 1 else s.divCount }
      else
        { isCommented := c1
          isMultipleWhitespace := false
          isLastWhitespace := false
          divCount := s.divCount }
    let shouldRetain := (!st.isCommented && !st.isMultipleWhitespace)
      || (isP6 && decide (5 ≤ st.divCount))
    let st2 := if val == 10 then { st with isCommented := false } else st
    (shouldRetain, st2)

/-- `Vec::retain` with the stateful closure: left-to-right filter threading
the flag state, returning the kept bytes and the final state. -/
def normGo (isP6 : Bool) : NormState → List Nat → List Nat × NormState
  | s, [] => ([], s)
  | s, v :: rest =>
    let p := normStep isP6 s v
    let r := normGo isP6 p.2 rest
    (if p.1 then v :: r.1 else r.1, r.2)

def initNormState : NormState := ⟨false, false, false, 0⟩

/-- The comment/whitespace normalization pass over the whole input buffer. -/
def normalize (isP6 : Bool) (input : List Nat) : List Nat :=
  (normGo isP6 initNormState input).1

/-- A UTF-8 continuation byte. -/
def isCont (b : Nat) : Bool := 128 ≤ b && b ≤ 191

/-- `std::str::from_utf8` validity on a byte list (fuel-indexed to make the
recursion structural; the fuel is always at least the list length). -/
def validUtf8Go : Nat → List Nat → Bool
  | 0, l => l.isEmpty
  | _ + 1, [] => true
  | fuel + 1, b :: rest =>
    if b ≤ 127 then validUtf8Go fuel rest
    else if 194 ≤ b && b ≤ 223 then
      match rest with
      | c1 :: r => isCont c1 && validUtf8Go fuel r
      | [] => false
    else if b == 224 then
      match rest with
      | c1 :: c2 :: r => (160 ≤ c1 && c1 ≤ 191) && isCont c2 && validUtf8Go fuel r
      | _ => false
    else if (225 ≤ b && b ≤ 236) || b == 238 || b == 239 then
      match rest with
      | c1 :: c2 :: r => isCont c1 && isCont c2 && validUtf8Go fuel r
      | _ => false
    else if b == 237 then
      match rest with
      | c1 :: c2 :: r => (128 ≤ c1 && c1 ≤ 159) && isCont c2 && validUtf8Go fuel r
      | _ => false
    else if b == 240 then
      match rest with
      | c1 :: c2 :: c3 :: r => (144 ≤ c1 && c1 ≤ 191) && isCont c2 && isCont c3 && validUtf8Go fuel r
      | _ => false
    else if 241 ≤ b && b ≤ 243 then
      match rest with
      | c1 :: c2 :: c3 :: r => isCont c1 && isCont c2 && isCont c3 && validUtf8Go fuel r
      | _ => false
    else if b == 244 then
      match rest with
      | c1 :: c2 :: c3 :: r => (128 ≤ c1 && c1 ≤ 143) && isCont c2 && isCont c3 && validUtf8Go fuel r
      | _ => false
    else false

def validUtf8 (l : List Nat) : Bool := validUtf8Go l.length l

/-- `BitmapData` (src/image.rs lines 5-9). -/
inductive BitmapData where
  | u8 : List Nat → BitmapData
  | u16 : List Nat → BitmapData
  | none : BitmapData
deriving DecidableEq

/-- `PPMVer` (src/ppm.rs lines 17-22). -/
inductive PPMVer where
  | p3 : PPMVer
  | p6 : PPMVer
  | none : PPMVer
deriving DecidableEq

/-- The `PPM` struct (src/ppm.rs lines 9-15). -/
structure PPM where
  width : Nat
  height : Nat
  maxValue : Nat
  ver : PPMVer
  buffer : BitmapData
deriving DecidableEq

/-- Outcome of a decoding function: `ok`, a typed recoverable error
(Rust `Err(...)` propagated through `?`), or a panic (`expect` /
out-of-bounds slicing), with its message. -/
inductive DecodeResult (α : Type) where
  | ok : α → DecodeResult α
  | err : String → DecodeResult α
  | panicked : String → DecodeResult α
deriving DecidableEq

/-- Rust `?` on a `Result`, with panics propagated in the same carrier. -/
def andThen {α β : Type} (r : DecodeResult α) (f : α → DecodeResult β) : DecodeResult β :=
  match r with
  | .ok a => f a
  | .err m => .err m
  | .panicked m => .panicked m

/-- Rust `Option::expect` / `Result::expect`: a missing value panics. -/
def expectP {α : Type} (o : Option α) (msg : String) : DecodeResult α :=
  match o with
  | Option.some a => .ok a
  | Option.none => .panicked msg

/-- `get_header_string` (src/ppm.rs lines 176-184): find the first
whitespace byte (panic `Invalid ppm header.` when absent), drain up to and
including it, and interpret the drained token as UTF-8 (panic
`Invalid ppm header characters.` when invalid).  Returns the token and the
remaining buffer. -/
def getHeaderString (buf : List Nat) : DecodeResult (List Nat × List Nat) :=
  match buf.findIdx? (fun b => isWhitespaceByte b) with
  | Option.none => .panicked "Invalid ppm header."
  | Option.some i =>
    let token := buf.take i
    let rest := buf.drop (i + 1)
    if validUtf8 token then .ok (token, rest)
    else .panicked "Invalid ppm header characters."

/-- One decimal digit byte. -/
def digitVal (b : Nat) : Option Nat :=
  if 48 ≤ b && b ≤ 57 then Option.some (b - 48) else Option.none

def parseDigits : Nat → List Nat → Option Nat
  | acc, [] => Option.some acc
  | acc, b :: rest =>
    match digitVal b with
    | Option.some d => parseDigits (acc * 10 + d) rest
    | Option.none => Option.none

/-- Rust `str::parse` for an unsigned integer type with exclusive upper
bound `bound` (`2 ^ 16` for `u16`, `2 ^ 64` for `usize`): an optional
leading `+`, then at least one ASCII digit, failing on any other byte and
on overflow. -/
def rustParseUnsigned (bound : Nat) (bs : List Nat) : Option Nat :=
  let ds := if bs.head? == Option.some 43 then bs.tail else bs
  if ds.isEmpty then Option.none
  else
    match parseDigits 0 ds with
    | Option.some v => if v < bound then Option.some v else Option.none
    | Option.none => Option.none

/-- The P3 pixel scan (src/ppm.rs lines 131-143): accumulate non-whitespace
bytes into a token and flush a parsed `u16` at each whitespace byte; a token
that fails to parse panics `Invalid number.`.  A trailing token not followed
by whitespace is never flushed, exactly as in the source. -/
def p3Scan : List Nat → List Nat → List Nat → DecodeResult (List Nat)
  | _, acc, [] => .ok acc
  | numString, acc, b :: rest =>
    if isWhitespaceByte b then
      if 0 < numString.length then
        match rustParseUnsigned (2 ^ 16) numString with
        | Option.some n => p3Scan [] (acc ++ [n]) rest
        | Option.none => .panicked "Invalid number."
      else p3Scan [] acc rest
    else p3Scan (numString ++ [b]) acc rest

/-- Depth promotion (src/ppm.rs lines 148-152): `max_value <= 255` narrows
every sample with `as u8` (`% 256`) into the `U8` variant, otherwise the
full-width samples are stored as `U16`. -/
def mkBuffer (maxValue : Nat) (samples : List Nat) : BitmapData :=
  if maxValue ≤ 255 then BitmapData.u8 (samples.map (fun v => v % 256))
  else BitmapData.u16 samples

/-- The header-extraction and pixel-extraction stage of
`PPM::populate_from_buffer` (src/ppm.rs lines 112-155), run on the
normalized buffer: extract magic / width / height / max_value (the magic
match is the only typed `Err` failure, the numeric `parse` calls are
`expect` panics), then scan P3 pixel text or take P6 bytes verbatim, and
apply depth promotion. -/
def decodeNormalized (buf : List Nat) : DecodeResult PPM :=
  andThen (getHeaderString buf) (fun q1 =>
  andThen (if q1.1 == [80, 51] then .ok PPMVer.p3
           else if q1.1 == [80, 54] then .ok PPMVer.p6
           else .err "Invalid ppm header version.") (fun ver =>
  andThen (getHeaderString q1.2) (fun q2 =>
  andThen (expectP (rustParseUnsigned (2 ^ 64) q2.1) "Invalid width parameter.") (fun width =>
  andThen (getHeaderString q2.2) (fun q3 =>
  andThen (expectP (rustParseUnsigned (2 ^ 64) q3.1) "Invalid height parameter.") (fun height =>
  andThen (getHeaderString q3.2) (fun q4 =>
  andThen (expectP (rustParseUnsigned (2 ^ 64) q4.1) "Invalid max value parameter.") (fun maxValue =>
  andThen (if ver == PPMVer.p3 then p3Scan [] [] q4.2 else .ok q4.2) (fun samples =>
  .ok { width := width, height := height, maxValue := maxValue, ver := ver,
        buffer := mkBuffer maxValue samples })))))))))

/-- `PPM::populate_from_buffer` (src/ppm.rs lines 69-155).  The version
sniff `&buffer[0..2]` panics on an input shorter than 2 bytes, then the
whole buffer is normalized in place and handed to the header/pixel stage. -/
def populateFromBuffer (input : List Nat) : DecodeResult PPM :=
  if input.length < 2 then
    .panicked "range end index 2 out of range for slice"
  else
    andThen (expectP (if validUtf8 (input.take 2) then Option.some (input.take 2) else Option.none)
        "Couldnt parse header.") (fun verBuf =>
    decodeNormalized (normalize (verBuf == [80, 54]) input))

/-- `Image::get_pixel_value` (src/image.rs lines 15-33), over the data the
trait reads (`get_width`, `get_height`, `get_buffer_ref`).  `Option.none`
models the Rust index-out-of-bounds panic on `data[index]`. -/
def getPixelValue (width height : Nat) (buffer : BitmapData) (x y : Nat) :
    Option (Nat × Nat × Nat) :=
  let index := (y * width + x) * 3
  if width * height * 3 ≤ index then Option.some (0, 0, 0)
  else
    match buffer with
    | BitmapData.u8 data =>
      match data.get? index, data.get? (index + 1), data.get? (index + 2) with
      | Option.some r, Option.some g, Option.some b => Option.some (r, g, b)
      | _, _, _ => Option.none
    | BitmapData.u16 data =>
      match data.get? index, data.get? (index + 1), data.get? (index + 2) with
      | Option.some r, Option.some g, Option.some b => Option.some (r, g, b)
      | _, _, _ => Option.none
    | BitmapData.none => Option.some (0, 0, 0)

/-- `get_pixel_value` on a decoded `PPM`. -/
def ppmGetPixelValue (img : PPM) (x y : Nat) : Option (Nat × Nat × Nat) :=
  getPixelValue img.width img.height img.buffer x y

/-- Result of the external JPEG codec call `reader.decode()` followed by
`to_rgb8`: dimensions and an interleaved 8-bit RGB buffer. -/
structure JpegDecoded where
  width : Nat
  height : Nat
  rgb8 : List Nat
deriving DecidableEq

/-- The `JPEG` struct (src/jpeg.rs lines 7-11). -/
structure JPEG where
  width : Nat
  height : Nat
  data : BitmapData
deriving DecidableEq

/-- `JPEG::populate_from_buffer` (src/jpeg.rs lines 27-38).  The external
codec is an opaque collaborator, modelled as a parameter: `Option.none` is
a codec failure (propagated by `?` as a typed error), `Option.some` the
decoded image, whose RGB8 buffer is stored as `BitmapData.u8`. -/
def jpegPopulateFromBuffer (decoded : Option JpegDecoded) : DecodeResult JPEG :=
  match decoded with
  | Option.none => .err "jpeg decode error"
  | Option.some d =>
    .ok { width := d.width, height := d.height, data := BitmapData.u8 d.rgb8 }

/-! ### Concrete inputs used by the claims (ASCII bytes spelled out) -/

/-- `"P6\n1 1\n255\n"`. -/
def p6Header11 : List Nat := [80, 54, 10, 49, 32, 49, 10, 50, 53, 53, 10]

/-- `"P6\n2 2\n255\n"`. -/
def p6Header22 : List Nat := [80, 54, 10, 50, 32, 50, 10, 50, 53, 53, 10]

/-- `"P3\n2 2\n255\n255 0 0  0 255 0  0 0 255  255 255 255\n"`. -/
def p3Concrete22 : List Nat :=
  [80, 51, 10, 50, 32, 50, 10, 50, 53, 53, 10, 50, 53, 53, 32, 48, 32, 48, 32, 32, 48,
   32, 50, 53, 53, 32, 48, 32, 32, 48, 32, 48, 32, 50, 53, 53, 32, 32, 50, 53, 53, 32,
   50, 53, 53, 32, 50, 53, 53, 10]

/-- `"P3\n1 1\n65535\n1000 2000 3000\n"`. -/
def p3Max65535 : List Nat :=
  [80, 51, 10, 49, 32, 49, 10, 54, 53, 53, 51, 53, 10, 49, 48, 48, 48, 32, 50, 48, 48,
   48, 32, 51, 48, 48, 48, 10]

/-- `"P3\nA 1\n255\n0 0 0\n"` (non-numeric width token). -/
def p3BadWidth : List Nat :=
  [80, 51, 10, 65, 32, 49, 10, 50, 53, 53, 10, 48, 32, 48, 32, 48, 10]

/-- `"P3\n1 A\n255\n0 0 0\n"` (non-numeric height token). -/
def p3BadHeight : List Nat :=
  [80, 51, 10, 49, 32, 65, 10, 50, 53, 53, 10, 48, 32, 48, 32, 48, 10]

/-- `"P3\n1 1\nA\n0 0 0\n"` (non-numeric max-value token). -/
def p3BadMax : List Nat :=
  [80, 51, 10, 49, 32, 49, 10, 65, 10, 48, 32, 48, 32, 48, 10]

/-- `"P3\n1 1\n255\nx \n"` (malformed token in the P3 pixel stream). -/
def p3BadPixel : List Nat :=
  [80, 51, 10, 49, 32, 49, 10, 50, 53, 53, 10, 120, 32, 10]

/-- `"P7\n1 1\n255\n0 0 0\n"` (unknown magic). -/
def p7Input : List Nat :=
  [80, 55, 10, 49, 32, 49, 10, 50, 53, 53, 10, 48, 32, 48, 32, 48, 10]

/-- `"P3\n2 2\n255\n1 2 3 4 5 6 7 8 9 10 11 12\n"`. -/
def p3Grid22 : List Nat :=
  [80, 51, 10, 50, 32, 50, 10, 50, 53, 53, 10, 49, 32, 50, 32, 51, 32, 52, 32, 53, 32,
   54, 32, 55, 32, 56, 32, 57, 32, 49, 48, 32, 49, 49, 32, 49, 50, 10]

/-- `"P3\n2#c\n 2\n255\n0 0 0 \n"`: the comment `#c\n` inserted between the
width token and the height token, directly after the width token's last
character. -/
def c8CommentedInput : List Nat :=
  [80, 51, 10, 50, 35, 99, 10, 32, 50, 10, 50, 53, 53, 10, 48, 32, 48, 32, 48, 32, 10]

/-- `"P3\n2 2\n255\n0 0 0 \n"`: the previous input with the comment removed. -/
def c8PlainInput : List Nat :=
  [80, 51, 10, 50, 32, 50, 10, 50, 53, 53, 10, 48, 32, 48, 32, 48, 32, 10]

/-- `"P3\n1 1\n255\n9 8 7 \n"`. -/
def p3Tiny : List Nat :=
  [80, 51, 10, 49, 32, 49, 10, 50, 53, 53, 10, 57, 32, 56, 32, 55, 32, 10]

/-! ### Helper lemmas -/

theorem andThen_eq_ok {α β : Type} {r : DecodeResult α} {f : α → DecodeResult β} {b : β}
    (h : andThen r f = .ok b) : ∃ a, r = .ok a ∧ f a = .ok b := by
  cases r with
  | ok a => exact ⟨a, rfl, h⟩
  | err m => simp [andThen] at h
  | panicked m => simp [andThen] at h

/-- Every successful run of the header/pixel stage builds its buffer with
the depth-promotion rule `mkBuffer` applied to its own `maxValue`. -/
theorem decodeNormalized_ok_shape {buf : List Nat} {st : PPM}
    (h : decodeNormalized buf = .ok st) :
    ∃ samples, st.buffer = mkBuffer st.maxValue samples := by
  unfold decodeNormalized at h
  obtain ⟨q1, -, h⟩ := andThen_eq_ok h
  obtain ⟨ver, -, h⟩ := andThen_eq_ok h
  obtain ⟨q2, -, h⟩ := andThen_eq_ok h
  obtain ⟨width, -, h⟩ := andThen_eq_ok h
  obtain ⟨q3, -, h⟩ := andThen_eq_ok h
  obtain ⟨height, -, h⟩ := andThen_eq_ok h
  obtain ⟨q4, -, h⟩ := andThen_eq_ok h
  obtain ⟨maxValue, -, h⟩ := andThen_eq_ok h
  obtain ⟨samples, -, h⟩ := andThen_eq_ok h
  injection h with h
  exact ⟨samples, by rw [← h]⟩

/-- Every successful `populate_from_buffer` builds its buffer with the
depth-promotion rule. -/
theorem populateFromBuffer_ok_shape {input : List Nat} {st : PPM}
    (h : populateFromBuffer input = .ok st) :
    ∃ samples, st.buffer = mkBuffer st.maxValue samples := by
  unfold populateFromBuffer at h
  split at h
  · simp at h
  · obtain ⟨verBuf, -, h⟩ := andThen_eq_ok h
    exact decodeNormalized_ok_shape h

theorem mkBuffer_u8_or_u16 (m : Nat) (s : List Nat) :
    ∃ l, mkBuffer m s = BitmapData.u8 l ∨ mkBuffer m s = BitmapData.u16 l := by
  unfold mkBuffer
  split
  · exact ⟨s.map (fun v => v % 256), Or.inl rfl⟩
  · exact ⟨s, Or.inr rfl⟩

/-! ### Claim theorems -/

/-- C1, counterexample: decoding the P6 input declared 2x2 (needing 12
payload bytes) with only 8 payload bytes succeeds with an 8-byte `U8`
buffer — no `PixelDataError` exists and no length validation is performed,
so decoding does succeed with a buffer whose length differs from
`width*height*3`. -/
theorem c1_truncated_p6_decodes_ok :
    populateFromBuffer (p6Header22 ++ [1, 2, 3, 4, 5, 6, 7, 8]) =
      DecodeResult.ok ⟨2, 2, 255, PPMVer.p6, BitmapData.u8 [1, 2, 3, 4, 5, 6, 7, 8]⟩ ∧
    ([1, 2, 3, 4, 5, 6, 7, 8] : List Nat).length = 8 ∧ 2 * 2 * 3 = 12 := by
  decide

/-- C1, amended: the decoder performs no payload-length validation, so a P6
input whose payload is shorter than `width*height*3` decodes successfully;
the mismatch then surfaces in `get_pixel_value` as an out-of-bounds index
(a Rust panic, modelled as `Option.none`) on an in-range coordinate, not as
a decode error. -/
theorem c1_no_length_validation :
    populateFromBuffer (p6Header22 ++ [1, 2, 3, 4, 5, 6, 7, 8]) =
      DecodeResult.ok ⟨2, 2, 255, PPMVer.p6, BitmapData.u8 [1, 2, 3, 4, 5, 6, 7, 8]⟩ ∧
    getPixelValue 2 2 (BitmapData.u8 [1, 2, 3, 4, 5, 6, 7, 8]) 1 1 = Option.none := by
  decide

/-- C2: decoding `"P6\n1 1\n255\n"` followed by the raw bytes `[10,20,30]`
does NOT yield the pixel `(10,20,30)`: after the minimal header only 4
header divisions have been counted (`HEADER_DIVS = 5` is never reached
before the payload), so normalization is still active and drops the leading
payload byte `10` as a collapsed repeated whitespace.  The decode yields the
2-byte buffer `[20,30]` and `get_pixel_value(0,0)` then panics
(out-of-bounds index, modelled `Option.none`). -/
theorem c2_p6_first_pixel_byte_dropped :
    populateFromBuffer (p6Header11 ++ [10, 20, 30]) =
      DecodeResult.ok ⟨1, 1, 255, PPMVer.p6, BitmapData.u8 [20, 30]⟩ ∧
    getPixelValue 1 1 (BitmapData.u8 [20, 30]) 0 0 = Option.none := by
  decide

/-- C3, counterexample: on the successfully decoded 2x2 image with pixel
bytes 1..12, the out-of-range coordinate `x = 2 = width`, `y = 0` is NOT
mapped to `(0,0,0)`: its index `(0*2+2)*3 = 6` is below `2*2*3`, so the
guard does not fire and the pixel `(0,1)` — bytes `(7,8,9)` — is returned
instead. -/
theorem c3_x_overflow_reads_next_row :
    populateFromBuffer p3Grid22 =
      DecodeResult.ok ⟨2, 2, 255, PPMVer.p3,
        BitmapData.u8 [1, 2, 3, 4, 5, 6, 7, 8, 9, 10, 11, 12]⟩ ∧
    getPixelValue 2 2 (BitmapData.u8 [1, 2, 3, 4, 5, 6, 7, 8, 9, 10, 11, 12]) 2 0 =
      Option.some (7, 8, 9) := by
  decide

/-- C3, amended: `get_pixel_value` returns `(0,0,0)` exactly under the
index guard `(y*width+x)*3 >= width*height*3`; in particular every
coordinate with `y >= height` (including `pixel_at(width, height)` and
`pixel_at(width-1, height)`) returns `(0,0,0)` without panicking, for any
buffer.  (A coordinate with `x >= width` but `y < height` may instead
return a pixel of a later row, as the counterexample shows.) -/
theorem c3_guard_is_index_based :
    (∀ w h buf x y, w * h * 3 ≤ (y * w + x) * 3 →
      getPixelValue w h buf x y = Option.some (0, 0, 0)) ∧
    (∀ w h buf x y, h ≤ y → getPixelValue w h buf x y = Option.some (0, 0, 0)) := by
  constructor
  · intro w h buf x y hle
    unfold getPixelValue
    rw [if_pos hle]
  · intro w h buf x y hy
    unfold getPixelValue
    rw [if_pos (by nlinarith)]

/-- Witness for the amended C3 at `width = height = 2`:
`pixel_at(width, height)` and `pixel_at(width-1, height)` both yield
`(0,0,0)` on the decoded 2x2 buffer. -/
theorem c3_guard_is_index_based_witness :
    getPixelValue 2 2 (BitmapData.u8 [1, 2, 3, 4, 5, 6, 7, 8, 9, 10, 11, 12]) 2 2 =
      Option.some (0, 0, 0) ∧
    getPixelValue 2 2 (BitmapData.u8 [1, 2, 3, 4, 5, 6, 7, 8, 9, 10, 11, 12]) 1 2 =
      Option.some (0, 0, 0) :=
  ⟨c3_guard_is_index_based.2 2 2 (BitmapData.u8 [1, 2, 3, 4, 5, 6, 7, 8, 9, 10, 11, 12])
      2 2 (by decide),
   c3_guard_is_index_based.2 2 2 (BitmapData.u8 [1, 2, 3, 4, 5, 6, 7, 8, 9, 10, 11, 12])
      1 2 (by decide)⟩

/-- C4, counterexample: a non-numeric width token is NOT returned as a
typed decode error — the `expect` call aborts decoding with the panic
`Invalid width parameter.`. -/
theorem c4_bad_width_panics :
    populateFromBuffer p3BadWidth = DecodeResult.panicked "Invalid width parameter." := by
  decide

/-- C4, amended: malformed width, height, and max_value tokens and a
malformed token in the P3 pixel stream all abort decoding by a panic whose
message names the failed field (`expect`), not by a returned error; only an
unknown magic string is returned to the caller as a typed recoverable
error. -/
theorem c4_parse_failures_panic :
    populateFromBuffer p3BadWidth = DecodeResult.panicked "Invalid width parameter." ∧
    populateFromBuffer p3BadHeight = DecodeResult.panicked "Invalid height parameter." ∧
    populateFromBuffer p3BadMax = DecodeResult.panicked "Invalid max value parameter." ∧
    populateFromBuffer p3BadPixel = DecodeResult.panicked "Invalid number." ∧
    populateFromBuffer p7Input = DecodeResult.err "Invalid ppm header version." := by
  decide

/-- C5: a literal `#` byte (35) at the start of P6 pixel data does NOT
survive normalization: after the minimal header only 4 of the 5 required
header divisions have been counted, so the pass is still active, treats the
`#` as a comment opener and drops it together with the rest of the payload
— the decode succeeds with an empty pixel buffer. -/
theorem c5_hash_in_p6_pixel_data_dropped :
    populateFromBuffer (p6Header11 ++ [35, 20, 30]) =
      DecodeResult.ok ⟨1, 1, 255, PPMVer.p6, BitmapData.u8 []⟩ := by
  decide

/-- C6: the concrete P3 input decodes to width 2, height 2, max_value 255,
the `U8` buffer `[255,0,0, 0,255,0, 0,0,255, 255,255,255]`, and
`get_pixel_value(1,1) = (255,255,255)`. -/
theorem c6_p3_concrete_decode :
    populateFromBuffer p3Concrete22 =
      DecodeResult.ok ⟨2, 2, 255, PPMVer.p3,
        BitmapData.u8 [255, 0, 0, 0, 255, 0, 0, 0, 255, 255, 255, 255]⟩ ∧
    getPixelValue 2 2 (BitmapData.u8 [255, 0, 0, 0, 255, 0, 0, 0, 255, 255, 255, 255]) 1 1 =
      Option.some (255, 255, 255) := by
  decide

/-- C7: every successful decode stores its buffer exactly as prescribed by
the depth-promotion rule `mkBuffer` on the parsed `max_value` (`<= 255`
narrows every sample with `% 256` into `U8`, otherwise the full-width
samples go into `U16` unchanged); concretely, the P3 input with
`max_value = 65535` decodes to the `U16` buffer `[1000, 2000, 3000]` with
every decimal value preserved. -/
theorem c7_depth_promotion :
    (∀ input st, populateFromBuffer input = DecodeResult.ok st →
      ∃ samples, st.buffer = mkBuffer st.maxValue samples) ∧
    populateFromBuffer p3Max65535 =
      DecodeResult.ok ⟨1, 1, 65535, PPMVer.p3, BitmapData.u16 [1000, 2000, 3000]⟩ :=
  ⟨fun _ _ h => populateFromBuffer_ok_shape h, by decide⟩

/-- Witness for C7 at the `max_value = 65535` input. -/
theorem c7_depth_promotion_witness :
    ∃ samples,
      (PPM.mk 1 1 65535 PPMVer.p3 (BitmapData.u16 [1000, 2000, 3000])).buffer =
        mkBuffer (PPM.mk 1 1 65535 PPMVer.p3 (BitmapData.u16 [1000, 2000, 3000])).maxValue
          samples :=
  c7_depth_promotion.1 p3Max65535
    (PPM.mk 1 1 65535 PPMVer.p3 (BitmapData.u16 [1000, 2000, 3000])) (by decide)

/-- C9: after any successful decode the exposed buffer is never the
absent (`None`) variant — it is `U8` or `U16` — both for the PPM decoder
and for the JPEG wrapper (whose external codec call is modelled as a
parameter: any successful codec result is stored as `U8`). -/
theorem c9_no_empty_buffer_after_decode :
    (∀ input st, populateFromBuffer input = DecodeResult.ok st →
      ∃ l, st.buffer = BitmapData.u8 l ∨ st.buffer = BitmapData.u16 l) ∧
    (∀ d j, jpegPopulateFromBuffer d = DecodeResult.ok j →
      ∃ l, j.data = BitmapData.u8 l ∨ j.data = BitmapData.u16 l) := by
  constructor
  · intro input st h
    obtain ⟨samples, hb⟩ := populateFromBuffer_ok_shape h
    rw [hb]
    exact mkBuffer_u8_or_u16 st.maxValue samples
  · intro d j h
    cases d with
    | none => simp [jpegPopulateFromBuffer] at h
    | some dd =>
      injection h with h
      exact ⟨dd.rgb8, Or.inl (by rw [← h])⟩

/-- Witness for C9 on a concrete successful PPM decode and a concrete
successful JPEG codec result. -/
theorem c9_no_empty_buffer_after_decode_witness :
    (∃ l, (PPM.mk 1 1 255 PPMVer.p3 (BitmapData.u8 [9, 8, 7])).buffer = BitmapData.u8 l ∨
      (PPM.mk 1 1 255 PPMVer.p3 (BitmapData.u8 [9, 8, 7])).buffer = BitmapData.u16 l) ∧
    (∃ l, (JPEG.mk 1 1 (BitmapData.u8 [5, 6, 7])).data = BitmapData.u8 l ∨
      (JPEG.mk 1 1 (BitmapData.u8 [5, 6, 7])).data = BitmapData.u16 l) :=
  ⟨c9_no_empty_buffer_after_decode.1 p3Tiny
      (PPM.mk 1 1 255 PPMVer.p3 (BitmapData.u8 [9, 8, 7])) (by decide),
   c9_no_empty_buffer_after_decode.2 (Option.some (JpegDecoded.mk 1 1 [5, 6, 7]))
      (JPEG.mk 1 1 (BitmapData.u8 [5, 6, 7])) (by decide)⟩

/-- C10: on any input shorter than 2 bytes the decoder never reaches any
error-returning code — the version sniff `&buffer[0..2]` fails first, as a
panic (out-of-bounds slice), never as a typed decode error. -/
theorem c10_short_input_panics (input : List Nat) (h : input.length < 2) :
    populateFromBuffer input =
      DecodeResult.panicked "range end index 2 out of range for slice" := by
  unfold populateFromBuffer
  rw [if_pos h]

/-- Witness for C10 at the 1-byte input `[80]`. -/
theorem c10_short_input_panics_witness :
    populateFromBuffer [80] =
      DecodeResult.panicked "range end index 2 out of range for slice" :=
  c10_short_input_panics [80] (by decide)

/-! ### The normalization state machine: lemmas for C8 -/

theorem normGo_append (isP6 : Bool) (s : NormState) (l1 l2 : List Nat) :
    normGo isP6 s (l1 ++ l2) =
      ((normGo isP6 s l1).1 ++ (normGo isP6 (normGo isP6 s l1).2 l2).1,
       (normGo isP6 (normGo isP6 s l1).2 l2).2) := by
  induction l1 generalizing s with
  | nil => simp [normGo]
  | cons v rest ih =>
    simp only [List.cons_append, normGo, ih]
    split <;> simp [ih]

/-- With `isP6 = false` the retained output and the `(isCommented,
isMultipleWhitespace, isLastWhitespace)` components of one step do not
depend on `divCount`. -/
theorem normStep_false_fields (s t : NormState) (v : Nat)
    (hc : s.isCommented = t.isCommented)
    (hm : s.isMultipleWhitespace = t.isMultipleWhitespace)
    (hl : s.isLastWhitespace = t.isLastWhitespace) :
    (normStep false s v).1 = (normStep false t v).1 ∧
    (normStep false s v).2.isCommented = (normStep false t v).2.isCommented ∧
    (normStep false s v).2.isMultipleWhitespace = (normStep false t v).2.isMultipleWhitespace ∧
    (normStep false s v).2.isLastWhitespace = (normStep false t v).2.isLastWhitespace := by
  obtain ⟨c, m, l, d⟩ := s
  obtain ⟨c', m', l', d'⟩ := t
  simp only at hc hm hl
  subst hc; subst hm; subst hl
  cases hw : isWhitespaceByte v <;> cases h35 : (v == 35) <;> cases h10 : (v == 10) <;>
    simp [normStep, hw, h35, h10]

/-- With `isP6 = false` the whole retained output does not depend on the
initial `divCount`. -/
theorem normGo_false_out_fields (l : List Nat) : ∀ s t : NormState,
    s.isCommented = t.isCommented → s.isMultipleWhitespace = t.isMultipleWhitespace →
    s.isLastWhitespace = t.isLastWhitespace →
    (normGo false s l).1 = (normGo false t l).1 ∧
    (normGo false s l).2.isCommented = (normGo false t l).2.isCommented ∧
    (normGo false s l).2.isMultipleWhitespace = (normGo false t l).2.isMultipleWhitespace ∧
    (normGo false s l).2.isLastWhitespace = (normGo false t l).2.isLastWhitespace := by
  induction l with
  | nil => intro s t hc hm hl; exact ⟨rfl, hc, hm, hl⟩
  | cons v rest ih =>
    intro s t hc hm hl
    obtain ⟨h1, h2, h3, h4⟩ := normStep_false_fields s t v hc hm hl
    obtain ⟨g1, g2, g3, g4⟩ := ih (normStep false s v).2 (normStep false t v).2 h2 h3 h4
    simp only [normGo]
    rw [h1, g1]
    exact ⟨rfl, g2, g3, g4⟩

/-- A `#` byte is dropped and switches the state into comment mode. -/
theorem normStep_hash (s : NormState) :
    normStep false s 35 = (false, ⟨true, false, false, s.divCount⟩) := by
  simp [normStep, isWhitespaceByte]

/-- Inside a comment, any byte other than a newline is dropped and the
comment mode persists. -/
theorem normStep_commented (s : NormState) (v : Nat) (hs : s.isCommented = true)
    (hv : v ≠ 10) :
    (normStep false s v).1 = false ∧ (normStep false s v).2.isCommented = true := by
  obtain ⟨c, m, l, d⟩ := s
  simp only at hs
  subst hs
  cases hw : isWhitespaceByte v <;> cases h35 : (v == 35) <;>
    simp [normStep, hw, h35, hv]

/-- Inside a comment, the newline is itself dropped, ends the comment and
counts as whitespace. -/
theorem normStep_newline_commented (s : NormState) (hs : s.isCommented = true) :
    normStep false s 10 =
      (false, ⟨false, if s.isLastWhitespace then true else s.isMultipleWhitespace,
               true, s.divCount⟩) := by
  obtain ⟨c, m, l, d⟩ := s
  simp only at hs
  subst hs
  simp [normStep, isWhitespaceByte]

/-- A comment body without newline is dropped wholesale and stays in
comment mode. -/
theorem normGo_commented (body : List Nat) : ∀ s : NormState, s.isCommented = true →
    (∀ v ∈ body, v ≠ 10) →
    (normGo false s body).1 = [] ∧ (normGo false s body).2.isCommented = true := by
  induction body with
  | nil => intro s hs _; exact ⟨rfl, hs⟩
  | cons v rest ih =>
    intro s hs hb
    obtain ⟨h1, h2⟩ := normStep_commented s v hs (hb v (by simp))
    obtain ⟨g1, g2⟩ := ih (normStep false s v).2 h2 (fun u hu => hb u (by simp [hu]))
    simp only [normGo]
    rw [h1, g1]
    exact ⟨rfl, g2⟩

/-- From two states that agree on `isCommented` and both have
`isLastWhitespace = true` (their `isMultipleWhitespace` and `divCount` may
differ), the `isP6 = false` pass retains the same bytes. -/
theorem normGo_out_from_last_true (l : List Nat) (c m1 m2 : Bool) (d1 d2 : Nat) :
    (normGo false ⟨c, m1, true, d1⟩ l).1 = (normGo false ⟨c, m2, true, d2⟩ l).1 := by
  cases l with
  | nil => rfl
  | cons v rest =>
    have hstep :
        (normStep false ⟨c, m1, true, d1⟩ v).1 = (normStep false ⟨c, m2, true, d2⟩ v).1 ∧
        (normStep false ⟨c, m1, true, d1⟩ v).2.isCommented =
          (normStep false ⟨c, m2, true, d2⟩ v).2.isCommented ∧
        (normStep false ⟨c, m1, true, d1⟩ v).2.isMultipleWhitespace =
          (normStep false ⟨c, m2, true, d2⟩ v).2.isMultipleWhitespace ∧
        (normStep false ⟨c, m1, true, d1⟩ v).2.isLastWhitespace =
          (normStep false ⟨c, m2, true, d2⟩ v).2.isLastWhitespace := by
      cases hw : isWhitespaceByte v <;> cases h35 : (v == 35) <;> cases h10 : (v == 10) <;>
        simp [normStep, hw, h35, h10]
    obtain ⟨h1, h2, h3, h4⟩ := hstep
    obtain ⟨g1, -, -, -⟩ := normGo_false_out_fields rest _ _ h2 h3 h4
    simp only [normGo]
    rw [h1, g1]

/-- Inserting a `#`-comment (body without newline, terminated by a newline)
at a point of the input where the pass is outside a comment and has just
consumed a whitespace byte does not change the retained bytes of the
`isP6 = false` pass. -/
theorem normalize_comment_after_ws (s1 body s2 : List Nat)
    (hc : (normGo false initNormState s1).2.isCommented = false)
    (hl : (normGo false initNormState s1).2.isLastWhitespace = true)
    (hbody : ∀ v ∈ body, v ≠ 10) :
    normalize false (s1 ++ 35 :: (body ++ 10 :: s2)) = normalize false (s1 ++ s2) := by
  unfold normalize
  rw [normGo_append, normGo_append]
  dsimp only
  congr 1
  generalize hg : (normGo false initNormState s1).2 = s0 at hc hl ⊢
  obtain ⟨c0, m0, l0, d0⟩ := s0
  simp only at hc hl
  subst hc; subst hl
  simp only [normGo, normStep_hash]
  rw [normGo_append]
  dsimp only
  obtain ⟨hbe, hbc⟩ := normGo_commented body ⟨true, false, false, d0⟩ rfl hbody
  rw [hbe]
  simp only [normGo, normStep_newline_commented _ hbc, List.nil_append]
  exact normGo_out_from_last_true s2 false _ m0 _ d0

/-- C8, counterexample: inserting the comment `#c\n` between the width
token and the height token, directly after the width token's last
character, changes the decode entirely: the comment's newline swallows the
following separator (collapsed as repeated whitespace), merging `2` and `2`
into the single token `22`, so the commented input decodes to width 22,
height 255, max_value 0 and buffer `[0,0]`, while the input with the
comment removed decodes to width 2, height 2, max_value 255 and buffer
`[0,0,0]`. -/
theorem c8_comment_after_token_changes_decode :
    populateFromBuffer c8CommentedInput =
      DecodeResult.ok ⟨22, 255, 0, PPMVer.p3, BitmapData.u8 [0, 0]⟩ ∧
    populateFromBuffer c8PlainInput =
      DecodeResult.ok ⟨2, 2, 255, PPMVer.p3, BitmapData.u8 [0, 0, 0]⟩ := by
  decide

/-- C8, amended: a `#`-comment inserted *immediately after a whitespace
byte* of a P3 input (the insertion point outside any comment), with a body
free of newlines and terminated by its newline, decodes identically to the
same input with the comment removed. -/
theorem c8_comment_after_separator_preserved (s1 body s2 : List Nat)
    (hlen : 2 ≤ s1.length)
    (htake : s1.take 2 = [80, 51])
    (hc : (normGo false initNormState s1).2.isCommented = false)
    (hl : (normGo false initNormState s1).2.isLastWhitespace = true)
    (hbody : ∀ v ∈ body, v ≠ 10) :
    populateFromBuffer (s1 ++ 35 :: (body ++ 10 :: s2)) = populateFromBuffer (s1 ++ s2) := by
  have hnorm := normalize_comment_after_ws s1 body s2 hc hl hbody
  have h1 : ¬ (s1 ++ 35 :: (body ++ 10 :: s2)).length < 2 := by
    rw [List.length_append]; omega
  have h2 : ¬ (s1 ++ s2).length < 2 := by
    rw [List.length_append]; omega
  have ht1 : (s1 ++ 35 :: (body ++ 10 :: s2)).take 2 = [80, 51] := by
    rw [List.take_append_of_le_length hlen]; exact htake
  have ht2 : (s1 ++ s2).take 2 = [80, 51] := by
    rw [List.take_append_of_le_length hlen]; exact htake
  unfold populateFromBuffer
  rw [if_neg h1, if_neg h2, ht1, ht2]
  show decodeNormalized (normalize false (s1 ++ 35 :: (body ++ 10 :: s2)))
      = decodeNormalized (normalize false (s1 ++ s2))
  exact congrArg decodeNormalized hnorm

/-- Witness for the amended C8: inserting the comment `#com\n` right after
the newline that follows the `P3` magic decodes identically to the
comment-free input. -/
theorem c8_comment_after_separator_preserved_witness :
    populateFromBuffer ([80, 51, 10] ++ 35 :: ([99, 111, 109] ++ 10 :: p3Tiny.drop 3)) =
      populateFromBuffer ([80, 51, 10] ++ p3Tiny.drop 3) :=
  c8_comment_after_separator_preserved [80, 51, 10] [99, 111, 109] (p3Tiny.drop 3)
    (by decide) (by decide) (by decide) (by decide) (by decide)

end PPMSpec
